import Mathlib

/-! Interop fixture headers: `StructNative.h` and `ComLib.h`.

A verification development over the two native test-fixture headers of the
SDK tests.  The headers contain declarations only: record types, a union, a
bit-field record, two text records, a compile-time assertion, six exported
functions, two abstract interfaces and one factory.

The development has three layers.

* The declarations of the two headers, transcribed as data (namespace `Decl`).
* The meaning the toolchain gives to those declarations: the object layout
  under natural alignment (`layoutRecord`), the packing of bit-fields into
  allocation units, the storage of an integer in a signed bit-field
  (`toBits`, `toSigned`) and the method table of a single-inheritance interface
  (`methodTables`).
* The operations themselves.  Their bodies live in translation units that are
  not part of the headers, so each is modelled from the specification and is
  marked as such.
-/

namespace Fixture

/-! ## Layer 1: declarations -/

/-- C++ types that occur in the two headers. -/
inductive CType where
  | int
  | float
  | double
  | char
  | wchar_t
  | array (elem : CType) (len : Nat)
  | pointer (pointee : CType)
  | named (name : String)
  deriving DecidableEq, Repr

/-- Kind of a class-key: `struct` or `union`. -/
inductive RecordKind where
  | struct
  | union
  deriving DecidableEq, Repr

/-- One data member; `bits` is the declared width of a bit-field member. -/
structure Member where
  type : CType
  name : String
  bits : Option Nat
  deriving DecidableEq, Repr

/-- One `struct` or `union` definition with its members in declaration order. -/
structure RecordDecl where
  kind : RecordKind
  name : String
  members : List Member
  deriving DecidableEq, Repr

/-- One function parameter. -/
structure Param where
  type : CType
  name : String
  deriving DecidableEq, Repr

/-- One function declaration (also used for a virtual member function). -/
structure FuncDecl where
  ret : CType
  name : String
  params : List Param
  deriving DecidableEq, Repr

/-- One interface: a `struct` with an optional public base and its own pure
virtual member functions in declaration order. -/
structure InterfaceDecl where
  name : String
  base : Option String
  methods : List FuncDecl
  deriving DecidableEq, Repr

namespace Decl

/-- Declaration `struct SimpleStruct { int i; int j; };`. -/
def SimpleStruct : RecordDecl :=
  ⟨.struct, "SimpleStruct", [⟨.int, "i", none⟩, ⟨.int, "j", none⟩]⟩

/-- Declaration `struct StructWithArray { int i[3]; double j; };`. -/
def StructWithArray : RecordDecl :=
  ⟨.struct, "StructWithArray", [⟨.array .int 3, "i", none⟩, ⟨.double, "j", none⟩]⟩

/-- Declaration `union TestUnion { int integer; float decimal; };`. -/
def TestUnion : RecordDecl :=
  ⟨.union, "TestUnion", [⟨.int, "integer", none⟩, ⟨.float, "decimal", none⟩]⟩

/-- Declaration `struct BitField { int firstBit : 1; int lastBits : 31; };`. -/
def BitField : RecordDecl :=
  ⟨.struct, "BitField", [⟨.int, "firstBit", some 1⟩, ⟨.int, "lastBits", some 31⟩]⟩

/-- Declaration `struct AsciiTest { char SmallString[10]; char* LargeString; };`. -/
def AsciiTest : RecordDecl :=
  ⟨.struct, "AsciiTest",
    [⟨.array .char 10, "SmallString", none⟩, ⟨.pointer .char, "LargeString", none⟩]⟩

/-- Declaration `struct Utf16Test { wchar_t SmallString[10]; wchar_t* LargeString; };`. -/
def Utf16Test : RecordDecl :=
  ⟨.struct, "Utf16Test",
    [⟨.array .wchar_t 10, "SmallString", none⟩, ⟨.pointer .wchar_t, "LargeString", none⟩]⟩

/-- Declaration `struct MyValue { int I; double J; };` of `ComLib.h`. -/
def MyValue : RecordDecl :=
  ⟨.struct, "MyValue", [⟨.int, "I", none⟩, ⟨.double, "J", none⟩]⟩

/-- Declaration `SimpleStruct GetSimpleStruct();`. -/
def GetSimpleStruct : FuncDecl :=
  ⟨.named "SimpleStruct", "GetSimpleStruct", []⟩

/-- Declaration `StructWithArray PassThroughArray(StructWithArray param);`. -/
def PassThroughArray : FuncDecl :=
  ⟨.named "StructWithArray", "PassThroughArray", [⟨.named "StructWithArray", "param"⟩]⟩

/-- Declaration `TestUnion PassThroughUnion(TestUnion param);`. -/
def PassThroughUnion : FuncDecl :=
  ⟨.named "TestUnion", "PassThroughUnion", [⟨.named "TestUnion", "param"⟩]⟩

/-- Declaration `BitField PassThroughBitfield(BitField param);`. -/
def PassThroughBitfield : FuncDecl :=
  ⟨.named "BitField", "PassThroughBitfield", [⟨.named "BitField", "param"⟩]⟩

/-- Declaration `AsciiTest PassThroughAscii(AsciiTest param);`. -/
def PassThroughAscii : FuncDecl :=
  ⟨.named "AsciiTest", "PassThroughAscii", [⟨.named "AsciiTest", "param"⟩]⟩

/-- Declaration `Utf16Test PassThroughUtf(Utf16Test param);`. -/
def PassThroughUtf : FuncDecl :=
  ⟨.named "Utf16Test", "PassThroughUtf", [⟨.named "Utf16Test", "param"⟩]⟩

/-- Declaration `struct IInterface { virtual MyValue GetValue() = 0; };`. -/
def IInterface : InterfaceDecl :=
  ⟨"IInterface", none, [⟨.named "MyValue", "GetValue", []⟩]⟩

/-- Declaration
`struct IInterface2 : public IInterface { virtual MyValue GetValue2() = 0; };`. -/
def IInterface2 : InterfaceDecl :=
  ⟨"IInterface2", some "IInterface", [⟨.named "MyValue", "GetValue2", []⟩]⟩

/-- Declaration `IInterface2* CreateInstance(void);`. -/
def CreateInstance : FuncDecl :=
  ⟨.pointer (.named "IInterface2"), "CreateInstance", []⟩

end Decl

/-- Record definitions of `StructNative.h`, in file order. -/
def structNativeRecords : List RecordDecl :=
  [Decl.SimpleStruct, Decl.StructWithArray, Decl.TestUnion, Decl.BitField,
   Decl.AsciiTest, Decl.Utf16Test]

/-- Exported functions of `StructNative.h`, in file order. -/
def structNativeFunctions : List FuncDecl :=
  [Decl.GetSimpleStruct, Decl.PassThroughArray, Decl.PassThroughUnion,
   Decl.PassThroughBitfield, Decl.PassThroughAscii, Decl.PassThroughUtf]

/-- Record definitions of `ComLib.h`. -/
def comLibRecords : List RecordDecl := [Decl.MyValue]

/-- Interfaces of `ComLib.h`, in file order. -/
def comLibInterfaces : List InterfaceDecl := [Decl.IInterface, Decl.IInterface2]

/-- Exported functions of `ComLib.h`. -/
def comLibFunctions : List FuncDecl := [Decl.CreateInstance]

/-! ## Layer 2a: object layout under natural alignment -/

/-- Sizes in bytes that the target gives to the fundamental types.  Natural
alignment means that each of them is aligned to its own size. -/
structure Abi where
  sizeofChar : Nat
  sizeofWchar : Nat
  sizeofInt : Nat
  sizeofFloat : Nat
  sizeofDouble : Nat
  sizeofPointer : Nat
  deriving DecidableEq, Repr

/-- Size and alignment of a complete type. -/
structure SizeAlign where
  size : Nat
  align : Nat
  deriving DecidableEq, Repr

/-- Placement of one member: the byte offset of its storage, and for a
bit-field the position of its lowest bit inside the allocation unit and its
width. -/
structure MemberLayout where
  name : String
  offset : Nat
  bitOffset : Nat
  bitWidth : Option Nat
  deriving DecidableEq, Repr

/-- Layout of a whole record. -/
structure RecordLayout where
  name : String
  members : List MemberLayout
  size : Nat
  align : Nat
  deriving DecidableEq, Repr

/-- Smallest multiple of `a` that is not below `n` (`n` itself when `a = 0`). -/
def roundUp (n a : Nat) : Nat :=
  if a = 0 then n else (n + a - 1) / a * a

/-- Look a laid-out record up by name. -/
def findLayout (env : List RecordLayout) (name : String) : Option RecordLayout :=
  env.find? (fun l => l.name == name)

/-- Size and alignment of a type, given the records laid out so far.  A name
that is not yet complete has no size. -/
def sizeAlignOf (abi : Abi) (env : List RecordLayout) : CType → Option SizeAlign
  | .char => some ⟨abi.sizeofChar, abi.sizeofChar⟩
  | .wchar_t => some ⟨abi.sizeofWchar, abi.sizeofWchar⟩
  | .int => some ⟨abi.sizeofInt, abi.sizeofInt⟩
  | .float => some ⟨abi.sizeofFloat, abi.sizeofFloat⟩
  | .double => some ⟨abi.sizeofDouble, abi.sizeofDouble⟩
  | .pointer _ => some ⟨abi.sizeofPointer, abi.sizeofPointer⟩
  | .array elem len =>
      match sizeAlignOf abi env elem with
      | some sa => some ⟨sa.size * len, sa.align⟩
      | none => none
  | .named name =>
      match findLayout env name with
      | some l => some ⟨l.size, l.align⟩
      | none => none

/-- State of the member walk of a `struct`: the next free byte, the largest
alignment seen, the open bit-field allocation unit (its byte offset, its size
in bytes and the number of its bits already taken), and the members placed so
far in reverse order. -/
structure Cursor where
  offset : Nat
  align : Nat
  unit : Option (Nat × Nat × Nat)
  placed : List MemberLayout

/-- Place one member of a `struct`.  An ordinary member closes any open
allocation unit and goes to the next offset aligned for its type.  A bit-field
goes into the open unit when that unit has the size of its type and enough
bits left, and otherwise opens a new unit at the next aligned offset; bits are
handed out from the lowest bit upwards. -/
def placeMember (abi : Abi) (env : List RecordLayout) (c : Cursor) (m : Member) :
    Option Cursor :=
  match sizeAlignOf abi env m.type with
  | none => none
  | some sa =>
    match m.bits with
    | none =>
        let off := roundUp c.offset sa.align
        some ⟨off + sa.size, max c.align sa.align, none,
              ⟨m.name, off, 0, none⟩ :: c.placed⟩
    | some w =>
        if w > 8 * sa.size then none else
        match c.unit with
        | some (uoff, usize, used) =>
            if usize = sa.size ∧ used + w ≤ 8 * usize then
              some ⟨c.offset, c.align, some (uoff, usize, used + w),
                    ⟨m.name, uoff, used, some w⟩ :: c.placed⟩
            else
              let off := roundUp c.offset sa.align
              some ⟨off + sa.size, max c.align sa.align, some (off, sa.size, w),
                    ⟨m.name, off, 0, some w⟩ :: c.placed⟩
        | none =>
            let off := roundUp c.offset sa.align
            some ⟨off + sa.size, max c.align sa.align, some (off, sa.size, w),
                  ⟨m.name, off, 0, some w⟩ :: c.placed⟩

/-- Walk the members of a `struct` in declaration order. -/
def placeMembers (abi : Abi) (env : List RecordLayout) : Cursor → List Member → Option Cursor
  | c, [] => some c
  | c, m :: ms =>
      match placeMember abi env c m with
      | some c2 => placeMembers abi env c2 ms
      | none => none

/-- Overlay the members of a `union`: every member at offset 0; the result is
the largest size and the largest alignment. -/
def overlayMembers (abi : Abi) (env : List RecordLayout) :
    List Member → Option (List MemberLayout × Nat × Nat)
  | [] => some ([], 0, 1)
  | m :: ms =>
      match sizeAlignOf abi env m.type, overlayMembers abi env ms with
      | some sa, some (ls, sz, al) =>
          some (⟨m.name, 0, 0, m.bits⟩ :: ls, max sa.size sz, max sa.align al)
      | _, _ => none

/-- Layout of one record under natural alignment: members in declaration
order, each at the first offset aligned for it, the total size rounded up to
the alignment of the record. -/
def layoutRecord (abi : Abi) (env : List RecordLayout) (d : RecordDecl) : Option RecordLayout :=
  match d.kind with
  | .struct =>
      match placeMembers abi env ⟨0, 1, none, []⟩ d.members with
      | some c => some ⟨d.name, c.placed.reverse, roundUp c.offset c.align, c.align⟩
      | none => none
  | .union =>
      match overlayMembers abi env d.members with
      | some (ls, sz, al) => some ⟨d.name, ls, roundUp sz al, al⟩
      | none => none

/-- Lay out the records of a header in file order; each sees the earlier ones. -/
def layoutAll (abi : Abi) : List RecordLayout → List RecordDecl → Option (List RecordLayout)
  | env, [] => some env
  | env, d :: ds =>
      match layoutRecord abi env d with
      | some l => layoutAll abi (env ++ [l]) ds
      | none => none

/-- The assertion `static_assert(sizeof(wchar_t) == 2, ...)` of `StructNative.h`. -/
def staticAssertWchar (abi : Abi) : Bool :=
  abi.sizeofWchar == 2

/-- The 32-bit Windows target. -/
def win32 : Abi := ⟨1, 2, 4, 4, 8, 4⟩

/-- The 64-bit Windows target. -/
def win64 : Abi := ⟨1, 2, 4, 4, 8, 8⟩

/-- Size in bytes of a named member of a record, by its declared type. -/
def memberSize (abi : Abi) (env : List RecordLayout) (d : RecordDecl) (member : String) :
    Option Nat :=
  match d.members.find? (fun m => m.name == member) with
  | some m => (sizeAlignOf abi env m.type).map (fun sa => sa.size)
  | none => none

/-! ## Layer 2b: method tables of single-inheritance interfaces -/

/-- Whether `m` overrides an entry of a base table (same name and parameters). -/
def overrides (table : List FuncDecl) (m : FuncDecl) : Bool :=
  table.any (fun b => b.name == m.name && b.params == m.params)

/-- Look the method table of an interface up by name. -/
def findTable (tables : List (String × List FuncDecl)) (name : String) :
    Option (List FuncDecl) :=
  (tables.find? (fun t => t.1 == name)).map (fun t => t.2)

/-- Build the method tables of the interfaces of a header in file order: an
interface without base starts a table with its own virtual functions; a
derived interface copies the table of its base and appends its new virtual
functions in declaration order.  An unknown base gives no table. -/
def methodTables :
    List (String × List FuncDecl) → List InterfaceDecl → Option (List (String × List FuncDecl))
  | tables, [] => some tables
  | tables, d :: ds =>
      match d.base with
      | none => methodTables (tables ++ [(d.name, d.methods)]) ds
      | some b =>
          match findTable tables b with
          | some inherited =>
              methodTables
                (tables ++ [(d.name, inherited ++ d.methods.filter (fun m => !overrides inherited m))])
                ds
          | none => none

/-- Method table of an interface of `ComLib.h`. -/
def methodTable (name : String) : Option (List FuncDecl) :=
  (methodTables [] comLibInterfaces).bind (fun ts => findTable ts name)

/-! ## Layer 2c: integer storage -/

/-- Bit pattern of width `w` that storing the integer `v` leaves (the low `w`
bits of the two's complement form of `v`). -/
def toBits (w : Nat) (v : Int) : Nat :=
  (v % (2 : Int) ^ w).toNat

/-- Value a signed integer of width `w` reads from a bit pattern. -/
def toSigned (w : Nat) (bits : Nat) : Int :=
  if bits % 2 ^ w < 2 ^ (w - 1) then ((bits % 2 ^ w : Nat) : Int)
  else ((bits % 2 ^ w : Nat) : Int) - (2 : Int) ^ w

/-- Stored bits of the bit-field of width `w` whose lowest bit is bit
`bitOffset` of the allocation unit `word`, as the number they spell. -/
def fieldBits (word bitOffset w : Nat) : Nat :=
  word / 2 ^ bitOffset % 2 ^ w

/-- Value of the signed bit-field of width `w` whose lowest bit is bit
`bitOffset` of the allocation unit `word`. -/
def readBitField (word bitOffset w : Nat) : Int :=
  toSigned w (fieldBits word bitOffset w)

/-- Allocation unit `word` after the integer `v` is assigned to the bit-field
of width `w` at `bitOffset`; the other bits are kept. -/
def writeBitField (word bitOffset w : Nat) (v : Int) : Nat :=
  word % 2 ^ bitOffset + toBits w v * 2 ^ bitOffset
    + word / 2 ^ (bitOffset + w) * 2 ^ (bitOffset + w)

/-! ## Layer 3: values of the records -/

/-- Value of `struct SimpleStruct`. -/
structure SimpleStruct where
  i : Int
  j : Int
  deriving DecidableEq, Repr

/-- Value of `struct StructWithArray`: three `int` elements and the bit
pattern of the `double`. -/
structure StructWithArray where
  i : Fin 3 → Int
  j : Nat

/-- Value of `union TestUnion`: the storage that `integer` and `decimal`
share. -/
structure TestUnion where
  storage : Nat
  deriving DecidableEq, Repr

/-- Member `integer` of the union, read as a 32-bit `int`. -/
def TestUnion.integer (u : TestUnion) : Int :=
  toSigned 32 u.storage

/-- Member `decimal` of the union, as the bit pattern of the `float`. -/
def TestUnion.decimal (u : TestUnion) : Nat :=
  u.storage % 2 ^ 32

/-- Value of `struct BitField`: the one `int` allocation unit that
`firstBit` (bit 0) and `lastBits` (bits 1 to 31) share. -/
structure BitField where
  storage : Nat
  deriving DecidableEq, Repr

/-- Member `int firstBit : 1`. -/
def BitField.firstBit (b : BitField) : Int :=
  readBitField b.storage 0 1

/-- Member `int lastBits : 31`. -/
def BitField.lastBits (b : BitField) : Int :=
  readBitField b.storage 1 31

/-- Record `BitField b; b.firstBit = firstBit; b.lastBits = lastBits;`
starting from zeroed storage. -/
def BitField.assign (firstBit lastBits : Int) : BitField :=
  ⟨writeBitField (writeBitField 0 0 1 firstBit) 1 31 lastBits⟩

/-- Byte-addressed memory outside the records. -/
abbrev Memory := Nat → Nat

/-- The `n` bytes of memory that start at address `p`. -/
def readBytes (mem : Memory) (p n : Nat) : List Nat :=
  (List.range n).map (fun k => mem (p + k))

/-- Value of `struct AsciiTest`: ten `char` code units held inline and the
address held in `LargeString`. -/
structure AsciiTest where
  SmallString : Fin 10 → Nat
  LargeString : Nat

/-- Value of `struct Utf16Test`: ten `wchar_t` code units held inline and the
address held in `LargeString`. -/
structure Utf16Test where
  SmallString : Fin 10 → Nat
  LargeString : Nat

/-- Value of `struct MyValue`: the `int` and the bit pattern of the `double`. -/
structure MyValue where
  I : Int
  J : Nat
  deriving DecidableEq, Repr

/-! ## Layer 3: the exported operations

The headers declare these functions and do not define them. -/

/-- Modelled from the spec: the body of `GetSimpleStruct` is not in
`StructNative.h`.  The specification says it "takes no input and returns a
fixed canned value" with no side effects and does not say which value, so the
constant `canned` is left open and the memory is handed back untouched. -/
def GetSimpleStruct (canned : SimpleStruct) (mem : Memory) : SimpleStruct × Memory :=
  (canned, mem)

/-- Modelled from the spec: the body of `PassThroughArray` is not in
`StructNative.h`.  The specification says the operation "takes the record by
value and returns it by value unchanged". -/
def PassThroughArray (param : StructWithArray) : StructWithArray :=
  param

/-- Modelled from the spec: the body of `PassThroughUnion` is not in
`StructNative.h`; it returns its argument unchanged. -/
def PassThroughUnion (param : TestUnion) : TestUnion :=
  param

/-- Modelled from the spec: the body of `PassThroughBitfield` is not in
`StructNative.h`; it returns its argument unchanged. -/
def PassThroughBitfield (param : BitField) : BitField :=
  param

/-- Modelled from the spec: the body of `PassThroughAscii` is not in
`StructNative.h`.  It returns its argument unchanged and, having no side
effects, leaves the memory as it found it. -/
def PassThroughAscii (param : AsciiTest) (mem : Memory) : AsciiTest × Memory :=
  (param, mem)

/-- Modelled from the spec: the body of `PassThroughUtf` is not in
`StructNative.h`.  It returns its argument unchanged and leaves the memory as
it found it. -/
def PassThroughUtf (param : Utf16Test) (mem : Memory) : Utf16Test × Memory :=
  (param, mem)

/-- Modelled from the spec: the class behind `IInterface2` is not in
`ComLib.h`.  The specification says each of the two operations "returns a
fixed or computed two-field record" and that every operation is stateless and
free of side effects, so an implementation is the data a new object starts
with and two functions that compute a record from the data of the object. -/
structure Implementation where
  initial : List Int
  GetValue : List Int → MyValue
  GetValue2 : List Int → MyValue

/-- The objects allocated so far; the object at index `k` has address `k + 1`,
and address 0 is the null pointer. -/
abbrev Heap := List (List Int)

/-- Modelled from the spec: the body of `CreateInstance` is not in `ComLib.h`.
The specification says it "takes no input and returns ownership of one
object", by one heap allocation.  The new object goes to the end of the heap
and its address is returned. -/
def CreateInstance (impl : Implementation) (heap : Heap) : Nat × Heap :=
  (heap.length + 1, heap ++ [impl.initial])

/-- Bodies of an implementation in the order of the method table of
`IInterface2`: slot 0 is `GetValue`, slot 1 is `GetValue2`. -/
def Implementation.slots (impl : Implementation) : List (List Int → MyValue) :=
  [impl.GetValue, impl.GetValue2]

/-- Virtual call through slot `slot` on the object at address `p`.  A null or
dangling pointer and a slot outside the table give no result.  The heap is
returned as it was. -/
def invoke (impl : Implementation) (slot p : Nat) (heap : Heap) : Option (MyValue × Heap) :=
  if p = 0 then none else
  match heap.get? (p - 1), impl.slots.get? slot with
  | some obj, some body => some (body obj, heap)
  | _, _ => none

/-- Results of `n` successive calls of one slot on one object. -/
def repeatInvoke (impl : Implementation) (slot p : Nat) : Nat → Heap → List (Option MyValue)
  | 0, _ => []
  | n + 1, heap =>
      match invoke impl slot p heap with
      | some (v, heap2) => some v :: repeatInvoke impl slot p n heap2
      | none => [none]

/-! ## Queries on the exported surface -/

/-- Whether `f` takes exactly one parameter of the record type `shape`, by
value, and returns that record type. -/
def isPassThroughFor (shape : String) (f : FuncDecl) : Bool :=
  f.ret == CType.named shape && f.params.map (fun p => p.type) == [CType.named shape]

/-- Names of the exported functions of `StructNative.h` that pass `shape`
through. -/
def passThroughsFor (shape : String) : List String :=
  (structNativeFunctions.filter (isPassThroughFor shape)).map (fun f => f.name)

/-- Names of the exported functions of `StructNative.h` that take no argument
and return the record type `shape`. -/
def gettersFor (shape : String) : List String :=
  (structNativeFunctions.filter
    (fun f => f.ret == CType.named shape && f.params.isEmpty)).map (fun f => f.name)

/-! ## Helper lemmas -/

/-- A call on an object that is on the heap, through a slot of the table,
returns the body applied to the object and the same heap. -/
theorem invoke_eq_some (impl : Implementation) (slot p : Nat) (heap : Heap)
    (obj : List Int) (body : List Int → MyValue) (hp : p ≠ 0)
    (hobj : heap.get? (p - 1) = some obj) (hbody : impl.slots.get? slot = some body) :
    invoke impl slot p heap = some (body obj, heap) := by
  unfold invoke
  rw [if_neg hp, hobj, hbody]

/-- Repeated calls on an object that is on the heap all return the same
record. -/
theorem repeatInvoke_eq_replicate (impl : Implementation) (slot p : Nat) (heap : Heap)
    (obj : List Int) (body : List Int → MyValue) (hp : p ≠ 0)
    (hobj : heap.get? (p - 1) = some obj) (hbody : impl.slots.get? slot = some body)
    (n : Nat) :
    repeatInvoke impl slot p n heap = List.replicate n (some (body obj)) := by
  induction n with
  | zero => rfl
  | succ k ih =>
      simp [repeatInvoke, invoke_eq_some impl slot p heap obj body hp hobj hbody, ih,
        List.replicate_succ]

/-- The object that `CreateInstance` returns is on the heap it returns. -/
theorem createInstance_get (impl : Implementation) (heap : Heap) :
    (CreateInstance impl heap).2.get? ((CreateInstance impl heap).1 - 1) = some impl.initial := by
  simp [CreateInstance]

/-- The rounded offset is not below the offset it rounds. -/
theorem roundUp_ge (n a : Nat) : n ≤ roundUp n a := by
  unfold roundUp
  split
  · exact Nat.le_refl n
  · rename_i ha
    have hpos : 0 < a := Nat.pos_of_ne_zero ha
    have h1 := Nat.div_add_mod (n + a - 1) a
    have h2 := Nat.mod_lt (n + a - 1) hpos
    have h3 : (n + a - 1) / a * a = a * ((n + a - 1) / a) := Nat.mul_comm _ _
    omega

/-- The rounded offset is a multiple of the alignment. -/
theorem roundUp_dvd (n a : Nat) (ha : a ≠ 0) : a ∣ roundUp n a := by
  unfold roundUp
  rw [if_neg ha]
  exact Nat.dvd_mul_left a _

/-- An integer inside the range of a signed field of width `w` is read back
as it was stored. -/
theorem toSigned_toBits (w : Nat) (v : Int) (hw : 0 < w)
    (hlo : -(2 : Int) ^ (w - 1) ≤ v) (hhi : v < (2 : Int) ^ (w - 1)) :
    toSigned w (toBits w v) = v := by
  obtain ⟨k, rfl⟩ : ∃ k, w = k + 1 := ⟨w - 1, by omega⟩
  simp only [Nat.add_sub_cancel] at hlo hhi
  unfold toSigned toBits
  have hpow : (2 : Int) ^ (k + 1) = 2 * 2 ^ k := by ring
  have hpowN : (2 : Nat) ^ (k + 1) = 2 * 2 ^ k := by ring
  have hpos : (0 : Int) < 2 ^ k := by positivity
  have hcast : ((2 ^ k : Nat) : Int) = (2 : Int) ^ k := by push_cast; rfl
  simp only [Nat.add_sub_cancel]
  rw [hpow, hpowN]
  generalize (2 : Int) ^ k = P at *
  generalize (2 : Nat) ^ k = Q at *
  have hm : (0 ≤ v ∧ v % (2 * P) = v) ∨ (v < 0 ∧ v % (2 * P) = v + 2 * P) := by
    rcases lt_or_le v 0 with hneg | hnn
    · right
      refine ⟨hneg, ?_⟩
      rw [← Int.add_emod_self]
      exact Int.emod_eq_of_lt (by omega) (by omega)
    · left
      exact ⟨hnn, Int.emod_eq_of_lt hnn (by omega)⟩
  have h0 : 0 ≤ v % (2 * P) := Int.emod_nonneg _ (by omega)
  have h1 : v % (2 * P) < 2 * P := Int.emod_lt_of_pos _ (by omega)
  have hnat : ((v % (2 * P)).toNat : Int) = v % (2 * P) := Int.toNat_of_nonneg h0
  have hlt : (v % (2 * P)).toNat < 2 * Q := by omega
  rw [Nat.mod_eq_of_lt hlt]
  split <;> omega

/-- A stored bit pattern fits the width of its field. -/
theorem toBits_lt (w : Nat) (v : Int) : toBits w v < 2 ^ w := by
  unfold toBits
  have hp : (0 : Int) < 2 ^ w := by positivity
  have h1 := Int.emod_lt_of_pos v hp
  have h0 := Int.emod_nonneg v (ne_of_gt hp)
  have hc : ((2 ^ w : Nat) : Int) = (2 : Int) ^ w := by push_cast; rfl
  omega

/-- Reading a bit-field after an assignment to it gives the stored pattern,
whatever the rest of the allocation unit holds. -/
theorem readBitField_writeBitField (word off w : Nat) (v : Int) :
    readBitField (writeBitField word off w v) off w = toSigned w (toBits w v) := by
  unfold readBitField fieldBits writeBitField
  congr 1
  have hb := toBits_lt w v
  have hoff : 0 < 2 ^ off := by positivity
  have hlow : word % 2 ^ off < 2 ^ off := Nat.mod_lt _ hoff
  rw [pow_add]
  have e : word % 2 ^ off + toBits w v * 2 ^ off + word / (2 ^ off * 2 ^ w) * (2 ^ off * 2 ^ w)
      = word % 2 ^ off + 2 ^ off * (toBits w v + 2 ^ w * (word / (2 ^ off * 2 ^ w))) := by ring
  rw [e, Nat.add_mul_div_left _ _ hoff, Nat.div_eq_of_lt hlow, Nat.zero_add,
    Nat.add_mul_mod_self_left, Nat.mod_eq_of_lt hb]

/-- The member `firstBit`, read as the signed `int` of one bit it is declared
as, gives 0 for a clear flag and -1 for a set flag. -/
theorem firstBit_zero_or_minus_one (b : BitField) : b.firstBit = 0 ∨ b.firstBit = -1 := by
  unfold BitField.firstBit readBitField fieldBits toSigned
  simp only [pow_zero, pow_one, Nat.div_one, Nat.sub_self, Nat.mod_mod]
  split <;> omega

/-- The member `lastBits` of a record built by assignment reads the value
assigned to it, when that value is in the range of a signed field of 31 bits. -/
theorem assign_lastBits (firstBit lastBits : Int)
    (hlo : -(2 : Int) ^ 30 ≤ lastBits) (hhi : lastBits < (2 : Int) ^ 30) :
    (BitField.assign firstBit lastBits).lastBits = lastBits := by
  unfold BitField.assign BitField.lastBits
  rw [readBitField_writeBitField]
  exact toSigned_toBits 31 lastBits (by decide) hlo hhi

/-- The member `firstBit` of a record built by assignment reads the low bit of
the value assigned to it as a signed bit: 0 for an even value, -1 for an odd
one. -/
theorem assign_firstBit (firstBit lastBits : Int) :
    (BitField.assign firstBit lastBits).firstBit = toSigned 1 (toBits 1 firstBit) := by
  unfold BitField.assign BitField.firstBit readBitField fieldBits
  congr 1
  have hb := toBits_lt 1 firstBit
  unfold writeBitField
  generalize toBits 1 firstBit = x at *
  generalize toBits 31 lastBits = y at *
  simp only [pow_zero, pow_one, Nat.div_one, Nat.mod_one, Nat.zero_div, Nat.zero_mul,
    Nat.zero_add, Nat.mul_one, Nat.add_zero] at *
  omega

/-! ## The claims -/

/-- C1: for every value of the array-bearing record, of the variant-overlay
record and of the packed-flags record, the matching pass-through operation
returns a record equal to its argument; for the union and the bit-field this
is equality of the shared storage, so every member reads the same afterwards. -/
theorem passThrough_value_echo (a : StructWithArray) (u : TestUnion) (b : BitField) :
    PassThroughArray a = a
      ∧ (PassThroughArray a).i = a.i ∧ (PassThroughArray a).j = a.j
      ∧ PassThroughUnion u = u
      ∧ (PassThroughUnion u).storage = u.storage
      ∧ (PassThroughUnion u).integer = u.integer ∧ (PassThroughUnion u).decimal = u.decimal
      ∧ PassThroughBitfield b = b
      ∧ (PassThroughBitfield b).storage = b.storage
      ∧ (PassThroughBitfield b).firstBit = b.firstBit
      ∧ (PassThroughBitfield b).lastBits = b.lastBits :=
  ⟨rfl, rfl, rfl, rfl, rfl, rfl, rfl, rfl, rfl, rfl, rfl⟩

/-- C2, as stated, fails: `StructNative.h` declares no function that takes a
`SimpleStruct` and returns a `SimpleStruct`, so it is not the case that each
of the six record shapes has one pass-through operation. -/
theorem simpleStruct_has_no_passThrough :
    Decl.SimpleStruct ∈ structNativeRecords
      ∧ passThroughsFor "SimpleStruct" = []
      ∧ ¬ (∀ d ∈ structNativeRecords, (passThroughsFor d.name).length = 1) := by
  refine ⟨by decide, by decide, ?_⟩
  intro h
  have h1 := h Decl.SimpleStruct (by decide)
  revert h1
  decide

/-- C2, amended: each of the five shapes array-bearing, variant-overlay,
packed-flags, narrow-text and wide-text has exactly one exported function
whose single by-value parameter and whose return value have that record type;
the simple record has none, and exactly one exported function,
`GetSimpleStruct`, takes no argument and returns the simple record. -/
theorem exported_surface_of_structNative :
    structNativeRecords.map (fun d => (d.name, passThroughsFor d.name))
        = [("SimpleStruct", []),
           ("StructWithArray", ["PassThroughArray"]),
           ("TestUnion", ["PassThroughUnion"]),
           ("BitField", ["PassThroughBitfield"]),
           ("AsciiTest", ["PassThroughAscii"]),
           ("Utf16Test", ["PassThroughUtf"])]
      ∧ gettersFor "SimpleStruct" = ["GetSimpleStruct"]
      ∧ structNativeFunctions.length = 6 := by
  decide

/-- C4: the method table of `IInterface2` is `[GetValue, GetValue2]` in that
order; the table of `IInterface`, `[GetValue]`, is an initial segment of it
and the derived interface adds exactly one entry behind it; both functions
take no argument and return `MyValue`, the record of an `int` and a `double`. -/
theorem methodTable_IInterface2 :
    methodTable "IInterface" = some [⟨.named "MyValue", "GetValue", []⟩]
      ∧ methodTable "IInterface2"
          = some [⟨.named "MyValue", "GetValue", []⟩, ⟨.named "MyValue", "GetValue2", []⟩]
      ∧ (∃ t1 t2, methodTable "IInterface" = some t1 ∧ methodTable "IInterface2" = some t2
          ∧ t1 <+: t2 ∧ t2.length = t1.length + 1
          ∧ t2.map (fun m => m.name) = ["GetValue", "GetValue2"]
          ∧ t2.map (fun m => m.ret) = [.named "MyValue", .named "MyValue"])
      ∧ Decl.MyValue.members = [⟨.int, "I", none⟩, ⟨.double, "J", none⟩] := by
  refine ⟨by decide, by decide, ?_, by decide⟩
  refine ⟨[⟨.named "MyValue", "GetValue", []⟩],
    [⟨.named "MyValue", "GetValue", []⟩, ⟨.named "MyValue", "GetValue2", []⟩],
    by decide, by decide, ?_, by decide, by decide, by decide⟩
  exact ⟨[⟨.named "MyValue", "GetValue2", []⟩], rfl⟩

/-- C5: `BitField` declares two `int` bit-fields, `firstBit` of width 1 and
then `lastBits` of width 31; the widths add up to 32, the number of bits of a
4-byte `int`, and under natural alignment both land in the one allocation unit
at offset 0 (bit 0, and bits 1 to 31), so the record is 4 bytes. -/
theorem bitField_shares_one_word (abi : Abi) (hint : abi.sizeofInt = 4) :
    Decl.BitField.members = [⟨.int, "firstBit", some 1⟩, ⟨.int, "lastBits", some 31⟩]
      ∧ (Decl.BitField.members.filterMap (fun m => m.bits)).sum = 32
      ∧ 8 * abi.sizeofInt = 32
      ∧ layoutRecord abi [] Decl.BitField
          = some ⟨"BitField",
              [⟨"firstBit", 0, 0, some 1⟩, ⟨"lastBits", 0, 1, some 31⟩], 4, 4⟩ := by
  refine ⟨rfl, by decide, by omega, ?_⟩
  simp [layoutRecord, Decl.BitField, placeMembers, placeMember, sizeAlignOf, roundUp, hint]

/-- Witness of C5 on the 64-bit Windows target. -/
theorem bitField_shares_one_word_witness :
    win64.sizeofInt = 4
      ∧ (Decl.BitField.members.filterMap (fun m => m.bits)).sum = 32
      ∧ layoutRecord win64 [] Decl.BitField
          = some ⟨"BitField",
              [⟨"firstBit", 0, 0, some 1⟩, ⟨"lastBits", 0, 1, some 31⟩], 4, 4⟩ :=
  ⟨rfl, (bitField_shares_one_word win64 rfl).2.1, (bitField_shares_one_word win64 rfl).2.2.2⟩

/-- C6: for every narrow-text and every wide-text record, in every memory,
the record that `PassThroughAscii` / `PassThroughUtf` returns has the same
inline `SmallString`, the buffer its `LargeString` refers to holds the bytes
that the buffer of the argument held, and the memory, and with it the buffer
of the caller, is as it was before the call. -/
theorem passThrough_text_echo (a : AsciiTest) (w : Utf16Test) (mem : Memory) (n : Nat) :
    (PassThroughAscii a mem).1.SmallString = a.SmallString
      ∧ readBytes (PassThroughAscii a mem).2 (PassThroughAscii a mem).1.LargeString n
          = readBytes mem a.LargeString n
      ∧ readBytes (PassThroughAscii a mem).2 a.LargeString n = readBytes mem a.LargeString n
      ∧ (PassThroughAscii a mem).2 = mem
      ∧ (PassThroughUtf w mem).1.SmallString = w.SmallString
      ∧ readBytes (PassThroughUtf w mem).2 (PassThroughUtf w mem).1.LargeString n
          = readBytes mem w.LargeString n
      ∧ readBytes (PassThroughUtf w mem).2 w.LargeString n = readBytes mem w.LargeString n
      ∧ (PassThroughUtf w mem).2 = mem :=
  ⟨rfl, rfl, rfl, rfl, rfl, rfl, rfl, rfl⟩

/-- C7: on every target on which the assertion `sizeof(wchar_t) == 2` of the
header holds, a `wchar_t` is 2 bytes and the member `SmallString` of
`Utf16Test`, an array of 10 of them, is 20 bytes. -/
theorem wchar_two_bytes (abi : Abi) (hassert : staticAssertWchar abi = true) :
    sizeAlignOf abi [] .wchar_t = some ⟨2, 2⟩
      ∧ Decl.Utf16Test.members.find? (fun m => m.name == "SmallString")
          = some ⟨.array .wchar_t 10, "SmallString", none⟩
      ∧ memberSize abi [] Decl.Utf16Test "SmallString" = some 20 := by
  have h2 : abi.sizeofWchar = 2 := by simpa [staticAssertWchar] using hassert
  refine ⟨by simp [sizeAlignOf, h2], by decide, ?_⟩
  simp [memberSize, Decl.Utf16Test, sizeAlignOf, h2]

/-- Witness of C7 on the 32-bit Windows target. -/
theorem wchar_two_bytes_witness :
    staticAssertWchar win32 = true
      ∧ memberSize win32 [] Decl.Utf16Test "SmallString" = some 20 :=
  ⟨rfl, (wchar_two_bytes win32 rfl).2.2⟩

/-- C8: `GetSimpleStruct` is declared without parameters, and any two calls,
in whatever memory, return the same record, the fixed constant. -/
theorem getSimpleStruct_constant (canned : SimpleStruct) (mem1 mem2 : Memory) :
    Decl.GetSimpleStruct.params = []
      ∧ Decl.GetSimpleStruct.ret = .named "SimpleStruct"
      ∧ (GetSimpleStruct canned mem1).1 = (GetSimpleStruct canned mem2).1
      ∧ (GetSimpleStruct canned mem1).1 = canned
      ∧ (GetSimpleStruct canned mem1).2 = mem1 :=
  ⟨rfl, rfl, rfl, rfl, rfl⟩

/-- C9: `CreateInstance` is declared without parameters and returns a pointer
to `IInterface2`; the address it returns is never null, and on the returned
object any number of successive calls of `GetValue` (slot 0) all return one
and the same `MyValue`, and likewise for `GetValue2` (slot 1). -/
theorem createInstance_nonnull_and_stable (impl : Implementation) (heap : Heap) (n : Nat) :
    Decl.CreateInstance.params = []
      ∧ Decl.CreateInstance.ret = .pointer (.named "IInterface2")
      ∧ (CreateInstance impl heap).1 ≠ 0
      ∧ repeatInvoke impl 0 (CreateInstance impl heap).1 n (CreateInstance impl heap).2
          = List.replicate n (some (impl.GetValue impl.initial))
      ∧ repeatInvoke impl 1 (CreateInstance impl heap).1 n (CreateInstance impl heap).2
          = List.replicate n (some (impl.GetValue2 impl.initial)) := by
  have hp : (CreateInstance impl heap).1 ≠ 0 := by simp [CreateInstance]
  refine ⟨rfl, rfl, hp, ?_, ?_⟩
  · exact repeatInvoke_eq_replicate impl 0 _ _ impl.initial impl.GetValue hp
      (createInstance_get impl heap) rfl n
  · exact repeatInvoke_eq_replicate impl 1 _ _ impl.initial impl.GetValue2 hp
      (createInstance_get impl heap) rfl n

/-- C10: under natural alignment with a 4-byte `int`, a 4-byte `float` and an
8-byte `double`, `SimpleStruct` has `i` at 0, `j` at 4 and size 8;
`StructWithArray` has `i` at 0, `j` at 16 and size 24; `TestUnion` has both
members at 0 and size 4; `MyValue` has `I` at 0, `J` at 8 and size 16. -/
theorem natural_layouts (abi : Abi) (hint : abi.sizeofInt = 4) (hfloat : abi.sizeofFloat = 4)
    (hdouble : abi.sizeofDouble = 8) :
    layoutRecord abi [] Decl.SimpleStruct
        = some ⟨"SimpleStruct", [⟨"i", 0, 0, none⟩, ⟨"j", 4, 0, none⟩], 8, 4⟩
      ∧ layoutRecord abi [] Decl.StructWithArray
        = some ⟨"StructWithArray", [⟨"i", 0, 0, none⟩, ⟨"j", 16, 0, none⟩], 24, 8⟩
      ∧ sizeAlignOf abi [] (.array .int 3) = some ⟨12, 4⟩
      ∧ layoutRecord abi [] Decl.TestUnion
        = some ⟨"TestUnion", [⟨"integer", 0, 0, none⟩, ⟨"decimal", 0, 0, none⟩], 4, 4⟩
      ∧ layoutRecord abi [] Decl.MyValue
        = some ⟨"MyValue", [⟨"I", 0, 0, none⟩, ⟨"J", 8, 0, none⟩], 16, 8⟩ := by
  refine ⟨?_, ?_, ?_, ?_, ?_⟩
  · simp [layoutRecord, Decl.SimpleStruct, placeMembers, placeMember, sizeAlignOf, roundUp, hint]
  · simp [layoutRecord, Decl.StructWithArray, placeMembers, placeMember, sizeAlignOf, roundUp,
      hint, hdouble]
  · simp [sizeAlignOf, hint]
  · simp [layoutRecord, Decl.TestUnion, overlayMembers, sizeAlignOf, roundUp, hint, hfloat]
  · simp [layoutRecord, Decl.MyValue, placeMembers, placeMember, sizeAlignOf, roundUp,
      hint, hdouble]

/-- Witness of C10 on the 32-bit Windows target. -/
theorem natural_layouts_witness :
    win32.sizeofInt = 4 ∧ win32.sizeofFloat = 4 ∧ win32.sizeofDouble = 8
      ∧ layoutRecord win32 [] Decl.SimpleStruct
        = some ⟨"SimpleStruct", [⟨"i", 0, 0, none⟩, ⟨"j", 4, 0, none⟩], 8, 4⟩
      ∧ layoutRecord win32 [] Decl.StructWithArray
        = some ⟨"StructWithArray", [⟨"i", 0, 0, none⟩, ⟨"j", 16, 0, none⟩], 24, 8⟩
      ∧ sizeAlignOf win32 [] (.array .int 3) = some ⟨12, 4⟩
      ∧ layoutRecord win32 [] Decl.TestUnion
        = some ⟨"TestUnion", [⟨"integer", 0, 0, none⟩, ⟨"decimal", 0, 0, none⟩], 4, 4⟩
      ∧ layoutRecord win32 [] Decl.MyValue
        = some ⟨"MyValue", [⟨"I", 0, 0, none⟩, ⟨"J", 8, 0, none⟩], 16, 8⟩ :=
  ⟨rfl, rfl, rfl, natural_layouts win32 rfl rfl rfl⟩

end Fixture
